import Mathlib

/-!
Shallow embedding of the vessel-dashboard list/detail screens
(`src/pages/dashboard/Table.tsx`, `src/pages/dashboard/detailPage.tsx`).

The list screen holds a collection of `Ship` records and derives the
displayed rows by filter (case-insensitive name containment), optional
comparator sort, and fixed-size pagination.  JavaScript values that the
sort comparator handles (`number`, `string`, and `null`-defaulted-to-`""`)
are embedded as `JSVal`; `Array.prototype.sort` (required to be stable by
the language specification) is embedded as a stable insertion sort
(`sortCmp`), which inserts each element before the first element that the
comparator does not place strictly earlier.  JavaScript numbers appearing
in the data (years, counts, registry numbers) are embedded as `Int`;
no claim depends on non-integer arithmetic.  `String.prototype.toLowerCase`
is embedded as character-wise `Char.toLower` over the string's characters.
-/

namespace Dashboard

/-- JavaScript value produced by the sort-key projection in `Table.tsx`:
either a number (`missions.length`, a non-null `year_built`) or a string
(`ship_name`, `ship_type`, or the `""` default for a null `year_built`). -/
inductive JSVal : Type
  | num : Int → JSVal
  | str : String → JSVal
deriving DecidableEq, Repr

/-- Numeric coercion used by the JavaScript relational comparison when at
least one operand is not a string: `""` converts to `0`, a numeral string
to its value, anything else to NaN (embedded as `none`). -/
def jsToNum : JSVal → Option Int
  | .num n => some n
  | .str s => if s = "" then some 0 else s.toInt?

/-- JavaScript strict equality `===` on the values the comparator sees:
operands of different types are never equal. -/
def jsStrictEq : JSVal → JSVal → Bool
  | .num a, .num b => a == b
  | .str a, .str b => a == b
  | _, _ => false

/-- JavaScript relational comparison `a > b` on the values the comparator
sees: two strings compare lexicographically, otherwise both operands are
converted to numbers and any NaN comparison is false. -/
def jsGt : JSVal → JSVal → Bool
  | .str a, .str b => decide (b < a)
  | a, b =>
    match jsToNum a, jsToNum b with
    | some x, some y => decide (y < x)
    | _, _ => false

/-- Mission entry of a list-screen ship (`{ name: string }`). -/
structure MissionRef where
  name : String
deriving DecidableEq, Repr

/-- The `Ship` record type of `Table.tsx`. -/
structure Ship where
  ship_id : Int
  ship_name : String
  ship_type : String
  roles : List String
  home_port : String
  year_built : Option Int
  active : Bool
  image : Option String
  missions : List MissionRef
deriving DecidableEq, Repr

/-- The sortable fields of `Table.tsx`:
`keyof Pick<Ship, "ship_name" | "ship_type" | "year_built"> | "missions"`. -/
inductive SortableField : Type
  | ship_name
  | ship_type
  | year_built
  | missions
deriving DecidableEq, Repr

/-- Sort-key projection from the comparator in `Table.tsx`:
`sortBy === "missions" ? a.missions.length : a[sortBy] ?? ""`. -/
def sortVal : SortableField → Ship → JSVal
  | .missions, s => .num s.missions.length
  | .ship_name, s => .str s.ship_name
  | .ship_type, s => .str s.ship_type
  | .year_built, s =>
    match s.year_built with
    | some y => .num y
    | none => .str ""

/-- The comparator passed to `data.sort` in `Table.tsx`:
returns `0` on strict equality, otherwise `±1` by `valA > valB`,
with the sign flipped when `reverseSort` is set. -/
def shipCmp (sortBy : SortableField) (reverseSort : Bool) (a b : Ship) : Int :=
  let valA := sortVal sortBy a
  let valB := sortVal sortBy b
  if jsStrictEq valA valB then 0
  else if reverseSort then (if jsGt valA valB then -1 else 1)
  else (if jsGt valA valB then 1 else -1)

/-- Stable insertion used by `sortCmp`: `x` is placed before the first
element `y` with `cmp x y ≤ 0`. -/
def insertCmp {α : Type} (cmp : α → α → Int) (x : α) : List α → List α
  | [] => [x]
  | y :: ys => if cmp x y ≤ 0 then x :: y :: ys else y :: insertCmp cmp x ys

/-- Embedding of `Array.prototype.sort` with a comparator: a stable sort.
Elements are inserted from the right, each before the first element not
comparing strictly earlier, so elements that compare equal keep their
original relative order. -/
def sortCmp {α : Type} (cmp : α → α → Int) : List α → List α
  | [] => []
  | x :: xs => insertCmp cmp x (sortCmp cmp xs)

/-- Character-wise lowering of a string, the embedding of
`String.prototype.toLowerCase` (basic-latin letters only). -/
def toLowerStr (s : String) : String := ⟨s.data.map Char.toLower⟩

/-- Embedding of `hay.includes(needle)`: `needle` occurs as a contiguous
substring of `hay`. -/
def strIncludes (hay needle : String) : Bool :=
  decide (needle.data <:+: hay.data)

/-- The filter stage of `filteredData` in `Table.tsx`:
`ships.filter(ship => ship.ship_name.toLowerCase().includes(search.toLowerCase()))`. -/
def filterStep (ships : List Ship) (search : String) : List Ship :=
  ships.filter (fun ship =>
    strIncludes (toLowerStr ship.ship_name) (toLowerStr search))

/-- The full `filteredData` memo of `Table.tsx`: filter by name, then,
when a sort key is selected, sort the (freshly created) filtered array
with the comparator. -/
def filteredData (ships : List Ship) (search : String)
    (sortBy : Option SortableField) (reverseSort : Bool) : List Ship :=
  let data := filterStep ships search
  match sortBy with
  | some k => sortCmp (shipCmp k reverseSort) data
  | none => data

/-- The fixed page size of the list screen. -/
def pageSize : Nat := 10

/-- Embedding of `Math.ceil(filteredData.length / pageSize)`. -/
def totalPages (l : List Ship) : Nat := (l.length + (pageSize - 1)) / pageSize

/-- Embedding of `filteredData.slice((currentPage-1)*pageSize, currentPage*pageSize)`. -/
def paginatedData (l : List Ship) (page : Nat) : List Ship :=
  (l.drop ((page - 1) * pageSize)).take pageSize

/-- All pages of a filtered collection, in order, page 1 first. -/
def pagesOf (l : List Ship) : List (List Ship) :=
  (List.range (totalPages l)).map (fun i => paginatedData l (i + 1))

/-- The mutable state of the list screen (`ShipTable`), one field per
`useState` hook in `Table.tsx`. -/
structure TableState where
  ships : List Ship
  loading : Bool
  search : String
  sortBy : Option SortableField
  reverseSort : Bool
  selectedShip : Option Ship
  drawerOpened : Bool
  currentPage : Nat
deriving DecidableEq, Repr

/-- The initial list-screen state: empty collection, loading, empty
search, no sort key, ascending, nothing selected, page 1. -/
def initialTableState : TableState :=
  { ships := []
    loading := true
    search := ""
    sortBy := none
    reverseSort := false
    selectedShip := none
    drawerOpened := false
    currentPage := 1 }

/-- The `setSorting` handler of `Table.tsx`:
`const reversed = field === sortBy ? !reverseSort : false;
setReverseSort(reversed); setSortBy(field);`. -/
def setSorting (s : TableState) (field : SortableField) : TableState :=
  let reversed := if s.sortBy = some field then !s.reverseSort else false
  { s with reverseSort := reversed, sortBy := some field }

/-- The search box `onChange` handler of `Table.tsx`:
`setSearch(e.currentTarget.value); setCurrentPage(1);`. -/
def onSearchChange (s : TableState) (value : String) : TableState :=
  { s with search := value, currentPage := 1 }

/-- The row-click handler of `Table.tsx`:
`setSelectedShip(ship); setDrawerOpened(true);`. -/
def onRowClick (s : TableState) (ship : Ship) : TableState :=
  { s with selectedShip := some ship, drawerOpened := true }

/-- The derived view of the list screen: the visible rows
(`paginatedData`) and the total page count, as a function of the five
inputs the derivation reads. -/
def deriveView (ships : List Ship) (search : String)
    (sortBy : Option SortableField) (reverseSort : Bool) (page : Nat) :
    List Ship × Nat :=
  let fd := filteredData ships search sortBy reverseSort
  (paginatedData fd page, totalPages fd)

/-- The derived view read off a list-screen state. -/
def viewOf (s : TableState) : List Ship × Nat :=
  deriveView s.ships s.search s.sortBy s.reverseSort s.currentPage

/-- One render pass of the list screen's `useMemo` derivation: it
computes the view and performs no state update (the `filter` call copies
the source array before `sort` mutates the copy), so the state — in
particular the fetched `ships` collection — is returned unchanged. -/
def computeDerived (s : TableState) : (List Ship × Nat) × TableState :=
  (viewOf s, s)

/-- What the list screen renders below the search box. -/
inductive TableRender : Type
  | loader
  | rows : List Ship → TableRender
  | noShips
deriving DecidableEq, Repr

/-- The list-screen render gate of `Table.tsx`: the loader while
`loading`, otherwise the visible rows, or the "No ships found" row when
the current page is empty. -/
def renderTable (s : TableState) : TableRender :=
  if s.loading then .loader
  else if (viewOf s).1 = [] then .noShips
  else .rows (viewOf s).1

/-- Settling of the list screen's `fetchShips` in `Table.tsx`: on
success the parsed array is stored, on error the error is only logged
and the collection is left as it was; `finally` clears the loading flag.
The function is total: no failure escapes the handler. -/
def tableAfterFetch (s : TableState) (result : Except String (List Ship)) :
    TableState :=
  match result with
  | .ok data => { s with ships := data, loading := false }
  | .error _ => { s with loading := false }

/-- The rendered year-built cell of `Table.tsx`: `ship.year_built ?? "N/A"`. -/
def renderYear (s : Ship) : String :=
  match s.year_built with
  | some y => toString y
  | none => "N/A"

/-- Mission entry of the detail-screen ship (`{ name, flight }`). -/
structure Mission where
  name : String
  flight : Int
deriving DecidableEq, Repr

/-- Telemetry position of the detail-screen ship. Latitude and longitude
are JavaScript numbers; no claim depends on their arithmetic. -/
structure Position where
  latitude : Int
  longitude : Int
deriving DecidableEq, Repr

/-- The `Ship` record type of `detailPage.tsx`. The source field `class`
is a reserved word here and is embedded as `shipClass`. -/
structure ShipDetail where
  ship_id : String
  ship_name : String
  ship_model : Option String
  ship_type : String
  roles : List String
  active : Bool
  imo : Int
  mmsi : Int
  abs : Option Int
  shipClass : Option String
  weight_lbs : Int
  weight_kg : Int
  year_built : Int
  home_port : String
  status : String
  speed_kn : Int
  course_deg : Int
  position : Position
  successful_landings : Option Int
  attempted_landings : Option Int
  missions : List Mission
  url : String
  image : Option String
deriving DecidableEq, Repr

/-- The mutable state of the detail screen (`ShipDetails`). -/
structure DetailState where
  ship : Option ShipDetail
  loading : Bool
deriving DecidableEq, Repr

/-- The initial detail-screen state: no record, loading. -/
def initialDetailState : DetailState :=
  { ship := none, loading := true }

/-- Settling of the detail screen's `fetchShip` in `detailPage.tsx`: on
success the parsed body (possibly no usable record, `none`) is stored, on
error the error is only logged and `ship` is left as it was; `finally`
clears the loading flag.  The function is total: no failure escapes the
handler. -/
def detailAfterFetch (s : DetailState)
    (result : Except String (Option ShipDetail)) : DetailState :=
  match result with
  | .ok data => { s with ship := data, loading := false }
  | .error _ => { s with loading := false }

/-- What the detail screen renders. -/
inductive DetailRender : Type
  | loader
  | notFound
  | details : ShipDetail → DetailRender
deriving DecidableEq, Repr

/-- The detail-screen render gate of `detailPage.tsx`: the loader while
`loading`, the "Ship not found" message when no record is held, otherwise
the field list of the record. -/
def renderDetail (s : DetailState) : DetailRender :=
  if s.loading then .loader
  else
    match s.ship with
    | none => .notFound
    | some ship => .details ship

/-- A screen container for the list screen, pairing the component state
with whether the screen is still active (mounted).  The component itself
keeps no such flag; this harness-level flag only lets deactivation be
talked about. -/
structure MountedTable where
  mounted : Bool
  state : TableState
deriving DecidableEq, Repr

/-- Commit of the `fetchShips` continuation into a (possibly
deactivated) list screen.  `Table.tsx` has no disposed/guard flag: the
continuation calls the state setters unconditionally, so the commit is
`tableAfterFetch` regardless of `mounted`. -/
def commitTableFetch (m : MountedTable) (result : Except String (List Ship)) :
    MountedTable :=
  { m with state := tableAfterFetch m.state result }

/-- A screen container for the detail screen, pairing the component
state with whether the screen is still active (mounted). -/
structure MountedDetail where
  mounted : Bool
  state : DetailState
deriving DecidableEq, Repr

/-- Commit of the `fetchShip` continuation into a (possibly deactivated)
detail screen.  `detailPage.tsx` has no disposed/guard flag: the
continuation calls the state setters unconditionally, so the commit is
`detailAfterFetch` regardless of `mounted`. -/
def commitDetailFetch (m : MountedDetail)
    (result : Except String (Option ShipDetail)) : MountedDetail :=
  { m with state := detailAfterFetch m.state result }

/-! ### Generic facts about the stable sort `sortCmp` -/

theorem mem_insertCmp {α : Type} (cmp : α → α → Int) (x a : α) :
    ∀ l : List α, a ∈ insertCmp cmp x l ↔ a = x ∨ a ∈ l
  | [] => by simp [insertCmp]
  | y :: ys => by
    rw [insertCmp]
    split
    · simp
    · rw [List.mem_cons, mem_insertCmp cmp x a ys, List.mem_cons]
      tauto

theorem perm_insertCmp {α : Type} (cmp : α → α → Int) (x : α) :
    ∀ l : List α, (insertCmp cmp x l).Perm (x :: l)
  | [] => List.Perm.refl _
  | y :: ys => by
    rw [insertCmp]
    split
    · exact List.Perm.refl _
    · exact ((perm_insertCmp cmp x ys).cons y).trans (List.Perm.swap x y ys)

theorem perm_sortCmp {α : Type} (cmp : α → α → Int) :
    ∀ l : List α, (sortCmp cmp l).Perm l
  | [] => List.Perm.refl _
  | x :: xs =>
    (perm_insertCmp cmp x (sortCmp cmp xs)).trans ((perm_sortCmp cmp xs).cons x)

theorem sublist_insertCmp {α : Type} (cmp : α → α → Int) (x : α) :
    ∀ l : List α, l.Sublist (insertCmp cmp x l)
  | [] => List.nil_sublist _
  | y :: ys => by
    rw [insertCmp]
    split
    · exact List.sublist_cons_self x (y :: ys)
    · exact (sublist_insertCmp cmp x ys).cons₂ y

theorem cons_sublist_insertCmp {α : Type} {cmp : α → α → Int} {x : α} :
    ∀ {l c : List α}, c.Sublist l → (∀ a ∈ c, cmp x a ≤ 0) →
      (x :: c).Sublist (insertCmp cmp x l)
  | [], c, hc, _ => by
    rw [List.sublist_nil.mp hc]
    exact List.Sublist.refl [x]
  | y :: ys, c, hc, hx => by
    rw [insertCmp]
    split
    · exact hc.cons₂ x
    · cases hc with
      | cons _ h => exact (cons_sublist_insertCmp h hx).cons y
      | cons₂ _ h =>
        exact absurd (hx y (List.mem_cons_self y _)) (by assumption)

theorem sublist_sortCmp {α : Type} {cmp : α → α → Int} :
    ∀ {l c : List α}, c.Pairwise (fun a b => cmp a b ≤ 0) → c.Sublist l →
      c.Sublist (sortCmp cmp l)
  | [], c, _, hc => by
    rw [List.sublist_nil.mp hc]
    exact List.nil_sublist _
  | x :: xs, c, hr, hc => by
    rw [sortCmp]
    cases hc with
    | cons _ h =>
      exact (sublist_sortCmp hr h).trans (sublist_insertCmp cmp x _)
    | cons₂ _ h =>
      obtain ⟨hx, hp⟩ := List.pairwise_cons.mp hr
      exact cons_sublist_insertCmp (sublist_sortCmp hp h) hx

theorem pairwise_insertCmp {α : Type} {cmp : α → α → Int}
    (htot : ∀ a b, cmp a b ≤ 0 ∨ cmp b a ≤ 0)
    (htrans : ∀ a b c, cmp a b ≤ 0 → cmp b c ≤ 0 → cmp a c ≤ 0) (x : α) :
    ∀ l : List α, l.Pairwise (fun a b => cmp a b ≤ 0) →
      (insertCmp cmp x l).Pairwise (fun a b => cmp a b ≤ 0)
  | [], _ => List.pairwise_singleton _ x
  | y :: ys, hl => by
    obtain ⟨hy, hys⟩ := List.pairwise_cons.mp hl
    rw [insertCmp]
    split
    · refine List.pairwise_cons.mpr ⟨?_, hl⟩
      intro b hb
      rcases List.mem_cons.mp hb with hb | hb
      · subst hb; assumption
      · exact htrans x y b (by assumption) (hy b hb)
    · refine List.pairwise_cons.mpr ⟨?_, pairwise_insertCmp htot htrans x ys hys⟩
      intro b hb
      rcases (mem_insertCmp cmp x b ys).mp hb with hb | hb
      · rw [hb]
        rcases htot x y with h | h
        · exact absurd h (by assumption)
        · exact h
      · exact hy b hb

theorem pairwise_sortCmp {α : Type} {cmp : α → α → Int}
    (htot : ∀ a b, cmp a b ≤ 0 ∨ cmp b a ≤ 0)
    (htrans : ∀ a b c, cmp a b ≤ 0 → cmp b c ≤ 0 → cmp a c ≤ 0) :
    ∀ l : List α, (sortCmp cmp l).Pairwise (fun a b => cmp a b ≤ 0)
  | [] => List.Pairwise.nil
  | x :: xs =>
    pairwise_insertCmp htot htrans x (sortCmp cmp xs)
      (pairwise_sortCmp htot htrans xs)

/-! ### Facts about the comparator -/

theorem jsStrictEq_refl (v : JSVal) : jsStrictEq v v = true := by
  cases v <;> simp [jsStrictEq]

theorem jsStrictEq_num (x y : Int) : jsStrictEq (.num x) (.num y) = (x == y) := rfl

theorem jsGt_num (x y : Int) : jsGt (.num x) (.num y) = decide (y < x) := rfl

theorem jsGt_num_emptystr (x : Int) : jsGt (.num x) (.str "") = decide (0 < x) := by
  show (match jsToNum (.num x), jsToNum (.str "") with
    | some u, some v => decide (v < u)
    | _, _ => false) = decide (0 < x)
  simp [jsToNum]

theorem jsGt_emptystr_num (y : Int) : jsGt (.str "") (.num y) = decide (y < 0) := by
  show (match jsToNum (.str ""), jsToNum (.num y) with
    | some u, some v => decide (v < u)
    | _, _ => false) = decide (y < 0)
  simp [jsToNum]

theorem jsStrictEq_str (s t : String) : jsStrictEq (.str s) (.str t) = (s == t) := rfl

theorem jsStrictEq_num_str (x : Int) (t : String) :
    jsStrictEq (.num x) (.str t) = false := rfl

theorem jsStrictEq_str_num (s : String) (y : Int) :
    jsStrictEq (.str s) (.num y) = false := rfl

theorem shipCmp_eq_zero_of_sortVal_eq {k : SortableField} {r : Bool} {a b : Ship}
    (h : sortVal k a = sortVal k b) : shipCmp k r a b = 0 := by
  simp [shipCmp, h, jsStrictEq_refl]

/-- Setting the direction flag negates the comparator's result. -/
theorem shipCmp_reverse (k : SortableField) (a b : Ship) :
    shipCmp k true a b = - shipCmp k false a b := by
  rcases hEq : jsStrictEq (sortVal k a) (sortVal k b) <;>
    rcases hGt : jsGt (sortVal k a) (sortVal k b) <;>
      simp [shipCmp, hEq, hGt]

/-- On the derived key `missions` the ascending comparator returns the
three-way comparison of the mission-list lengths. -/
theorem shipCmp_missions_eq (a b : Ship) :
    shipCmp .missions false a b =
      if a.missions.length = b.missions.length then 0
      else if b.missions.length < a.missions.length then 1 else -1 := by
  have h1 : sortVal .missions a = .num a.missions.length := rfl
  have h2 : sortVal .missions b = .num b.missions.length := rfl
  simp only [shipCmp, h1, h2, jsStrictEq_num, jsGt_num]
  by_cases he : a.missions.length = b.missions.length
  · simp [he]
  · by_cases hg : b.missions.length < a.missions.length
    · have he' : ¬((a.missions.length : Int) = (b.missions.length : Int)) := by
        exact_mod_cast he
      have hg' : (b.missions.length : Int) < (a.missions.length : Int) := by
        exact_mod_cast hg
      simp [he, hg, he', hg']
    · have he' : ¬((a.missions.length : Int) = (b.missions.length : Int)) := by
        exact_mod_cast he
      have hg' : ¬((b.missions.length : Int) < (a.missions.length : Int)) := by
        exact_mod_cast hg
      simp [he, hg, he', hg']

/-- Sign characterisation of the `missions` comparator. -/
theorem shipCmp_missions_charact (a b : Ship) :
    (shipCmp .missions false a b < 0 ↔ a.missions.length < b.missions.length)
    ∧ (shipCmp .missions false a b = 0 ↔ a.missions.length = b.missions.length) := by
  rw [shipCmp_missions_eq]
  constructor <;> split_ifs <;>
    first
      | omega
      | (rw [false_iff]; omega)

/-- The numeric value used by the `year_built` comparison: a missing
year compares as the empty string, which converts to `0`. -/
def yearNum (s : Ship) : Int :=
  match s.year_built with
  | some y => y
  | none => 0

/-- The ascending `year_built` comparator orders by `yearNum`. -/
theorem shipCmp_year_le (a b : Ship) :
    shipCmp .year_built false a b ≤ 0 ↔ yearNum a ≤ yearNum b := by
  rcases ha : a.year_built with _ | x <;> rcases hb : b.year_built with _ | y
  · have h1 : sortVal .year_built a = .str "" := by simp [sortVal, ha]
    have h2 : sortVal .year_built b = .str "" := by simp [sortVal, hb]
    simp [shipCmp, h1, h2, jsStrictEq_str, yearNum, ha, hb]
  · have h1 : sortVal .year_built a = .str "" := by simp [sortVal, ha]
    have h2 : sortVal .year_built b = .num y := by simp [sortVal, hb]
    simp only [shipCmp, h1, h2, jsStrictEq_str_num, jsGt_emptystr_num,
      yearNum, ha, hb]
    by_cases hy : y < 0 <;> simp [hy] <;> omega
  · have h1 : sortVal .year_built a = .num x := by simp [sortVal, ha]
    have h2 : sortVal .year_built b = .str "" := by simp [sortVal, hb]
    simp only [shipCmp, h1, h2, jsStrictEq_num_str, jsGt_num_emptystr,
      yearNum, ha, hb]
    by_cases hx : 0 < x <;> simp [hx] <;> omega
  · have h1 : sortVal .year_built a = .num x := by simp [sortVal, ha]
    have h2 : sortVal .year_built b = .num y := by simp [sortVal, hb]
    simp only [shipCmp, h1, h2, jsStrictEq_num, jsGt_num, yearNum, ha, hb]
    by_cases he : x = y
    · simp [he]
    · by_cases hg : y < x <;> simp [he, hg] <;> omega

/-- The ascending `year_built` comparator is total. -/
theorem year_le_total (a b : Ship) :
    shipCmp .year_built false a b ≤ 0 ∨ shipCmp .year_built false b a ≤ 0 := by
  rw [shipCmp_year_le, shipCmp_year_le]
  omega

/-- The ascending `year_built` comparator is transitive. -/
theorem year_le_trans (a b c : Ship) (h₁ : shipCmp .year_built false a b ≤ 0)
    (h₂ : shipCmp .year_built false b c ≤ 0) :
    shipCmp .year_built false a c ≤ 0 := by
  rw [shipCmp_year_le] at h₁ h₂ ⊢
  omega

/-! ### Pagination facts -/

theorem join_chunks {α : Type} (sz : Nat) (hsz : 0 < sz) :
    ∀ (n : Nat) (l : List α), l.length ≤ n →
      ((List.range ((l.length + (sz - 1)) / sz)).map
        (fun i => (l.drop (i * sz)).take sz)).flatten = l := by
  intro n
  induction n with
  | zero =>
    intro l hl
    have h0 : l = [] := List.eq_nil_of_length_eq_zero (Nat.le_zero.mp hl)
    subst h0
    have h1 : ((0 : Nat) + (sz - 1)) / sz = 0 := by
      apply Nat.div_eq_of_lt
      omega
    simp [h1]
  | succ n ih =>
    intro l hl
    match l with
    | [] =>
      have h1 : ((0 : Nat) + (sz - 1)) / sz = 0 := by
        apply Nat.div_eq_of_lt
        omega
      simp [h1]
    | x :: xs =>
      have hdl : ((x :: xs).drop sz).length = (x :: xs).length - sz := by
        simp
      have hpages : ((x :: xs).length + (sz - 1)) / sz
          = (((x :: xs).drop sz).length + (sz - 1)) / sz + 1 := by
        rw [hdl]
        rcases Nat.le_total (x :: xs).length sz with h | h
        · have h2 : (x :: xs).length - sz = 0 := by
            omega
          rw [h2]
          have h3 : ((0 : Nat) + (sz - 1)) / sz = 0 := by
            apply Nat.div_eq_of_lt
            omega
          rw [h3]
          have hlen1 : 1 ≤ (x :: xs).length := by
            simp
          exact Nat.div_eq_of_lt_le (by omega) (by omega)
        · have h4 : (x :: xs).length - sz + (sz - 1) + sz
              = (x :: xs).length + (sz - 1) := by
            omega
          rw [← h4, Nat.add_div_right _ hsz]
      rw [hpages, List.range_succ_eq_map, List.map_cons, List.map_map]
      have hmap : (List.range ((((x :: xs).drop sz).length + (sz - 1)) / sz)).map
            ((fun i => ((x :: xs).drop (i * sz)).take sz) ∘ Nat.succ)
          = (List.range ((((x :: xs).drop sz).length + (sz - 1)) / sz)).map
            (fun i => (((x :: xs).drop sz).drop (i * sz)).take sz) := by
        apply List.map_congr_left
        intro i _
        show ((x :: xs).drop ((i + 1) * sz)).take sz = _
        rw [List.drop_drop]
        have h5 : sz + i * sz = (i + 1) * sz := by
          ring
        rw [h5]
      rw [hmap]
      have hih := ih ((x :: xs).drop sz) (by
        rw [hdl]
        simp only [List.length_cons] at hl ⊢
        omega)
      simp only [List.flatten_cons, hih, Nat.zero_mul, List.drop_zero,
        List.take_append_drop]

/-- Concatenating all pages in order reconstructs the paginated list. -/
theorem pagesOf_join (l : List Ship) : (pagesOf l).flatten = l := by
  have h := join_chunks pageSize (by decide) l.length l (Nat.le_refl _)
  have h2 : pagesOf l = (List.range ((l.length + (pageSize - 1)) / pageSize)).map
      (fun i => (l.drop (i * pageSize)).take pageSize) := by
    unfold pagesOf totalPages paginatedData
    apply List.map_congr_left
    intro i _
    rfl
  rw [h2, h]

/-! ### Concrete records used by witnesses and counterexamples -/

/-- A concrete ship with the given identifier, name, year and missions. -/
def mkShip (id : Int) (name : String) (yr : Option Int) (ms : List MissionRef) : Ship :=
  { ship_id := id
    ship_name := name
    ship_type := "Tug"
    roles := ["support"]
    home_port := "Port"
    year_built := yr
    active := true
    image := none
    missions := ms }

def shipNoMissions : Ship := mkShip 1 "Quest" (some 1958) []

def shipOneMission : Ship := mkShip 2 "Searcher" (some 1960) [⟨"CRS-1"⟩]

def shipThreeMissions : Ship :=
  mkShip 3 "Ranger" (some 1962) [⟨"CRS-2"⟩, ⟨"CRS-3"⟩, ⟨"CRS-4"⟩]

def shipTwinA : Ship := mkShip 4 "Pacific" (some 1970) []

def shipTwinB : Ship := mkShip 5 "Atlantic" (some 1971) []

def shipNullYear : Ship := mkShip 6 "Ghost" none []

def shipYearLater : Ship := mkShip 7 "Navigator" (some 2001) []

/-- Twelve concrete ships, in a fixed original order. -/
def demoFleet : List Ship :=
  (["Alpha", "Bravo", "Charlie", "Delta", "Echo", "Foxtrot", "Golf",
    "Hotel", "India", "Juliett", "Kilo", "Lima"]).map
    (fun n => mkShip 0 n (some 2000) [])

/-! ### The claims -/

/-- Claim C1: for every collection and search string, the list screen's
filter keeps a record iff its ship name contains the search string as a
case-insensitive substring; the kept records preserve the collection's
relative order, and the empty search string returns the collection
unchanged. -/
theorem claim_C1 (ships : List Ship) (search : String) :
    (∀ x : Ship, x ∈ filterStep ships search ↔
      x ∈ ships ∧ (toLowerStr search).data <:+: (toLowerStr x.ship_name).data)
    ∧ (filterStep ships search).Sublist ships
    ∧ filterStep ships "" = ships := by
  refine ⟨?_, ?_, ?_⟩
  · intro x
    rw [filterStep, List.mem_filter]
    constructor
    · rintro ⟨h1, h2⟩
      exact ⟨h1, of_decide_eq_true h2⟩
    · rintro ⟨h1, h2⟩
      exact ⟨h1, decide_eq_true h2⟩
  · exact List.filter_sublist _
  · rw [filterStep]
    apply List.filter_eq_self.mpr
    intro a _
    apply decide_eq_true
    show (toLowerStr "").data <:+: _
    exact List.nil_infix

/-- Witness for C1 at a concrete collection and search string. -/
theorem claim_C1_witness :
    (shipNoMissions ∈ filterStep [shipNoMissions, shipTwinA] "UES"
      ↔ shipNoMissions ∈ [shipNoMissions, shipTwinA]
        ∧ (toLowerStr "UES").data <:+: (toLowerStr shipNoMissions.ship_name).data)
    ∧ filterStep [shipNoMissions, shipTwinA] "" = [shipNoMissions, shipTwinA] :=
  ⟨(claim_C1 [shipNoMissions, shipTwinA] "UES").1 shipNoMissions,
    (claim_C1 [shipNoMissions, shipTwinA] "").2.2⟩

/-- Claim C2: for the fixed page size, the total page count is the
ceiling of the filtered count divided by the page size, page `p` holds
exactly the rows at indices `[(p-1)*size, p*size)`, and concatenating all
pages in order reconstructs the whole collection with every row exactly
once. -/
theorem claim_C2 (l : List Ship) :
    (l.length ≤ totalPages l * pageSize
      ∧ ∀ m : Nat, l.length ≤ m * pageSize → totalPages l ≤ m)
    ∧ (∀ p i : Nat, i < pageSize →
      (paginatedData l p)[i]? = l[(p - 1) * pageSize + i]?)
    ∧ (pagesOf l).flatten = l := by
  refine ⟨⟨?_, ?_⟩, ?_, ?_⟩
  · simp only [totalPages, pageSize]
    omega
  · intro m hm
    simp only [totalPages, pageSize] at *
    omega
  · intro p i hi
    rw [paginatedData, List.getElem?_take_of_lt hi, List.getElem?_drop]
  · exact pagesOf_join l

/-- Witness for C2 at a twelve-record collection: two pages, the first
element of page 2 is row 10, and flattening the pages restores the
collection. -/
theorem claim_C2_witness :
    (paginatedData demoFleet 2)[0]? = demoFleet[10]?
    ∧ totalPages demoFleet ≤ 2
    ∧ (pagesOf demoFleet).flatten = demoFleet :=
  ⟨by
      have h := (claim_C2 demoFleet).2.1 2 0 (by decide)
      simpa using h,
    (claim_C2 demoFleet).1.2 2 (by decide),
    (claim_C2 demoFleet).2.2⟩

/-- Claim C3: with a selected sort key the comparator orders records by
that key's value — for the derived key `missions`, by the length of the
mission list — ascending by default, and the direction flag negates the
comparator's result; sorting records with mission-list lengths `[3,0,1]`
ascending yields lengths `[0,1,3]`. -/
theorem claim_C3 :
    (∀ a b : Ship,
      (shipCmp .missions false a b < 0 ↔ a.missions.length < b.missions.length)
      ∧ (shipCmp .missions false a b = 0 ↔ a.missions.length = b.missions.length))
    ∧ (∀ (k : SortableField) (a b : Ship),
      shipCmp k true a b = - shipCmp k false a b)
    ∧ sortCmp (shipCmp .missions false)
        [shipThreeMissions, shipNoMissions, shipOneMission]
      = [shipNoMissions, shipOneMission, shipThreeMissions] :=
  ⟨shipCmp_missions_charact, shipCmp_reverse, by decide⟩

/-- Claim C4: the sort is stable — two records with equal sort-key values
keep, after sorting, the relative order they had in the filtered
collection. -/
theorem claim_C4 (ships : List Ship) (search : String) (k : SortableField)
    (r : Bool) (a b : Ship) (hv : sortVal k a = sortVal k b)
    (hab : List.Sublist [a, b] (filterStep ships search)) :
    List.Sublist [a, b] (filteredData ships search (some k) r) := by
  have h0 : shipCmp k r a b = 0 := shipCmp_eq_zero_of_sortVal_eq hv
  have hp : List.Pairwise (fun x y => shipCmp k r x y ≤ 0) [a, b] := by
    refine List.Pairwise.cons ?_ (List.pairwise_singleton _ _)
    intro y hy
    rw [List.mem_singleton.mp hy, h0]
  show List.Sublist [a, b] (sortCmp (shipCmp k r) (filterStep ships search))
  exact sublist_sortCmp hp hab

/-- Witness for C4: two concrete ships with zero missions each keep
their order when a third record is sorted past them. -/
theorem claim_C4_witness :
    List.Sublist [shipTwinA, shipTwinB]
      (filteredData [shipOneMission, shipTwinA, shipTwinB] ""
        (some .missions) false) :=
  claim_C4 [shipOneMission, shipTwinA, shipTwinB] "" .missions false
    shipTwinA shipTwinB (by decide) (by decide)

/-- A loaded list-screen state holding two ships with zero and one
mission, no search text, no sort key, ascending, page 1. -/
def tableStateAB : TableState :=
  { ships := [shipNoMissions, shipOneMission]
    loading := false
    search := ""
    sortBy := none
    reverseSort := false
    selectedShip := none
    drawerOpened := false
    currentPage := 1 }

/-- The same state with the `missions` key already selected, ascending. -/
def tableStateSorted : TableState :=
  { tableStateAB with sortBy := some SortableField.missions }

/-- Claim C5 (amended): applying the currently selected sort key again
toggles the direction; applying a different key selects it with the
direction reset to ascending; and when the key is already the selected
key, applying it twice returns the sort state — hence the displayed
collection — to exactly what it was before. -/
theorem claim_C5 (s : TableState) (f : SortableField) :
    (s.sortBy = some f → (setSorting s f).reverseSort = !s.reverseSort)
    ∧ (s.sortBy ≠ some f →
      (setSorting s f).reverseSort = false ∧ (setSorting s f).sortBy = some f)
    ∧ (s.sortBy = some f → setSorting (setSorting s f) f = s) := by
  refine ⟨?_, ?_, ?_⟩
  · intro h
    simp [setSorting, h]
  · intro h
    simp [setSorting, h]
  · intro h
    cases s
    simp_all [setSorting]

/-- Counterexample to C5 as stated: from a state with no selected key,
applying the `missions` key twice leaves the screen in descending order,
not in the ascending order for that key. -/
theorem claim_C5_cex :
    (viewOf (setSorting (setSorting tableStateAB .missions) .missions)).1
      ≠ sortCmp (shipCmp .missions false)
          (filterStep tableStateAB.ships tableStateAB.search) := by
  decide

/-- Witness for C5 at a state whose selected key is `missions`. -/
theorem claim_C5_witness :
    (setSorting tableStateSorted .missions).reverseSort
      = !tableStateSorted.reverseSort
    ∧ setSorting (setSorting tableStateSorted .missions) .missions
      = tableStateSorted :=
  ⟨(claim_C5 tableStateSorted .missions).1 rfl,
    (claim_C5 tableStateSorted .missions).2.2 rfl⟩

/-- Claim C6: changing the search string resets the current page to 1,
while changing the sort key or direction leaves the current page — and
the rest of the state other than the sort fields — unchanged. -/
theorem claim_C6 (s : TableState) (v : String) (f : SortableField) :
    (onSearchChange s v).currentPage = 1
    ∧ (setSorting s f).currentPage = s.currentPage
    ∧ (setSorting s f).ships = s.ships
    ∧ (setSorting s f).search = s.search :=
  ⟨rfl, rfl, rfl, rfl⟩

/-- Every row of the derived view comes from the source collection. -/
theorem mem_filteredData {ships : List Ship} {search : String}
    {k : Option SortableField} {r : Bool} {x : Ship}
    (hx : x ∈ filteredData ships search k r) : x ∈ ships := by
  have hx' : x ∈ filterStep ships search := by
    cases k with
    | none => exact hx
    | some k =>
      exact ((perm_sortCmp (shipCmp k r) (filterStep ships search)).mem_iff).mp hx
  exact (List.filter_sublist _).subset hx'

/-- Claim C7: the derived view is a pure function of the source
collection, search string, sort key, direction and page; computing it
changes no state (in particular not the fetched collection); the sorted
filtered collection is a permutation of the filtered collection; and
every visible row comes from the source collection. -/
theorem claim_C7 :
    (∀ s₁ s₂ : TableState, s₁.ships = s₂.ships → s₁.search = s₂.search →
      s₁.sortBy = s₂.sortBy → s₁.reverseSort = s₂.reverseSort →
      s₁.currentPage = s₂.currentPage → viewOf s₁ = viewOf s₂)
    ∧ (∀ s : TableState, (computeDerived s).2 = s)
    ∧ (∀ (ships : List Ship) (search : String) (k : SortableField) (r : Bool),
      (filteredData ships search (some k) r).Perm (filterStep ships search))
    ∧ (∀ s : TableState, ∀ x ∈ (viewOf s).1, x ∈ s.ships) := by
  refine ⟨?_, fun s => rfl, ?_, ?_⟩
  · intro s₁ s₂ h1 h2 h3 h4 h5
    rw [viewOf, viewOf, h1, h2, h3, h4, h5]
  · intro ships search k r
    exact perm_sortCmp (shipCmp k r) (filterStep ships search)
  · intro s x hx
    exact mem_filteredData (List.mem_of_mem_drop (List.mem_of_mem_take hx))

/-- Witness for C7: the view ignores the loading flag and the drawer
state. -/
theorem claim_C7_witness :
    viewOf tableStateAB
      = viewOf { tableStateAB with loading := true, drawerOpened := true } :=
  claim_C7.1 tableStateAB
    { tableStateAB with loading := true, drawerOpened := true }
    rfl rfl rfl rfl rfl

/-- Claim C8: a detail fetch that errors, or that resolves without a
usable record, clears the loading flag and renders "not found"; a list
fetch that errors clears the loading flag and renders the empty table
state.  The settle functions are total, so no failure escapes. -/
theorem claim_C8 :
    (∀ e : String,
      (detailAfterFetch initialDetailState (Except.error e)).loading = false
      ∧ renderDetail (detailAfterFetch initialDetailState (Except.error e))
        = DetailRender.notFound)
    ∧ ((detailAfterFetch initialDetailState (Except.ok none)).loading = false
      ∧ renderDetail (detailAfterFetch initialDetailState (Except.ok none))
        = DetailRender.notFound)
    ∧ (∀ e : String,
      (tableAfterFetch initialTableState (Except.error e)).loading = false
      ∧ renderTable (tableAfterFetch initialTableState (Except.error e))
        = TableRender.noShips) :=
  ⟨fun _ => ⟨rfl, rfl⟩, ⟨rfl, rfl⟩, fun _ => ⟨rfl, rfl⟩⟩

/-- Claim C9 (amended): neither screen has a disposed/guard flag — the
fetch continuation commits its result into the screen's state container
regardless of whether the screen is still mounted, so a successful
result is always written. -/
theorem claim_C9 (m : MountedTable) (md : MountedDetail)
    (r₁ : Except String (List Ship)) (r₂ : Except String (Option ShipDetail)) :
    (commitTableFetch m r₁).state
      = (commitTableFetch { m with mounted := true } r₁).state
    ∧ (commitDetailFetch md r₂).state
      = (commitDetailFetch { md with mounted := true } r₂).state
    ∧ (∀ d, r₁ = Except.ok d → (commitTableFetch m r₁).state.ships = d)
    ∧ (∀ d, r₂ = Except.ok d → (commitDetailFetch md r₂).state.ship = d) := by
  refine ⟨rfl, rfl, ?_, ?_⟩
  · intro d hd
    subst hd
    rfl
  · intro d hd
    subst hd
    rfl

/-- Counterexample to C9 as stated: a fetch that resolves after the list
screen has deactivated still writes its result into that screen's state
container. -/
theorem claim_C9_cex :
    (commitTableFetch { mounted := false, state := initialTableState }
      (Except.ok [shipOneMission])).state.ships = [shipOneMission]
    ∧ (commitTableFetch { mounted := false, state := initialTableState }
      (Except.ok [shipOneMission])).state.ships ≠ initialTableState.ships :=
  ⟨rfl, by decide⟩

/-- Witness for C9 at a deactivated screen and a successful result. -/
theorem claim_C9_witness :
    (commitTableFetch { mounted := false, state := initialTableState }
      (Except.ok [shipNoMissions])).state.ships = [shipNoMissions] :=
  (claim_C9 { mounted := false, state := initialTableState }
    { mounted := false, state := initialDetailState }
    (Except.ok [shipNoMissions]) (Except.ok none)).2.2.1 [shipNoMissions] rfl

/-- Claim C10: a record with no year built is compared as the empty
string; after an ascending sort by year built no record with a positive
year precedes a record with a missing year; and a missing year renders
as "N/A". -/
theorem claim_C10 :
    (∀ s : Ship, s.year_built = none → sortVal .year_built s = JSVal.str "")
    ∧ (∀ (ships : List Ship) (search : String),
      (filteredData ships search (some .year_built) false).Pairwise
        (fun a b => ∀ n : Int, a.year_built = some n → 0 < n →
          b.year_built ≠ none))
    ∧ (∀ s : Ship, s.year_built = none → renderYear s = "N/A") := by
  refine ⟨?_, ?_, ?_⟩
  · intro s hs
    simp [sortVal, hs]
  · intro ships search
    have hp := pairwise_sortCmp year_le_total year_le_trans
      (filterStep ships search)
    show (sortCmp (shipCmp .year_built false) (filterStep ships search)).Pairwise _
    refine hp.imp ?_
    intro a b hab n hn hpos hbnone
    rw [shipCmp_year_le] at hab
    simp only [yearNum, hn, hbnone] at hab
    omega
  · intro s hs
    simp [renderYear, hs]

/-- Witness for C10 at concrete records with and without a year. -/
theorem claim_C10_witness :
    sortVal .year_built shipNullYear = JSVal.str ""
    ∧ renderYear shipNullYear = "N/A"
    ∧ (filteredData [shipYearLater, shipNullYear] ""
        (some .year_built) false).Pairwise
        (fun a b => ∀ n : Int, a.year_built = some n → 0 < n →
          b.year_built ≠ none) :=
  ⟨claim_C10.1 shipNullYear rfl, claim_C10.2.2 shipNullYear rfl,
    claim_C10.2.1 [shipYearLater, shipNullYear] ""⟩

end Dashboard
